import Mathlib

/-!
Verification of the website signal scanner of this repository:
the calendar-booking detector (scan_calendars.py) and the phone-number
sniper filter (utils/scan_phone_numbers.py), shallowly embedded in Lean.

External collaborators (HTTP client, BeautifulSoup HTML parsing, the
urllib URL library, the phonenumbers matcher) are modelled as oracle
parameters: a fetched page is given as already-parsed data, URL joining
and path extraction are function parameters, and the phone matcher is a
function from text to match spans.  The scanner logic itself — scoring,
aggregation, filtering — is translated line by line from the source.
-/

/- ### Basic string machinery (models of Python str operations) -/

/-- Model of Python membership test on character lists: does the second
list occur as a contiguous sublist of the first? -/
def leadsWith : List Char → List Char → Bool
  | [], _ => true
  | _ :: _, [] => false
  | a :: as, b :: bs => a = b && leadsWith as bs

/-- Substring containment: hay then needle. Models Python's `in`. -/
def containsChars : List Char → List Char → Bool
  | hay, needle =>
    match hay with
    | [] => needle.isEmpty
    | _ :: t => leadsWith needle hay || containsChars t needle

/-- String-level substring containment, modelling Python `needle in hay`. -/
def containsStr (hay needle : String) : Bool :=
  containsChars hay.data needle.data

/-- ASCII lowercase conversion, modelling Python str.lower on ASCII text. -/
def lowerChars (l : List Char) : List Char := l.map Char.toLower

/-- String-level lowercase. -/
def lowerStr (s : String) : String := String.mk (lowerChars s.data)

/-- Whitespace as recognised by Python str.strip / str.split / regex backslash-s
(ASCII fragment). -/
def isSpaceRe (c : Char) : Bool :=
  c = ' ' || c = '\t' || c = '\n' || c = '\x0d' || c = '\x0b' || c = '\x0c'

/-- Model of Python str.strip(): drop whitespace from both ends. -/
def pyStrip (s : String) : String :=
  String.mk (((s.data.dropWhile isSpaceRe).reverse.dropWhile isSpaceRe).reverse)

/-- Model of Python slicing s[:n] on a string's characters. -/
def takeStr (n : Nat) (s : String) : String := String.mk (s.data.take n)

/-- Model of Python slicing l[-n:]: the last n elements (whole list if short). -/
def lastN (n : Nat) (l : List Char) : List Char := l.drop (l.length - n)

/-- Model of Python s.rstrip with the single character '/'. -/
def rstripSlash (s : String) : String :=
  String.mk ((s.data.reverse.dropWhile (fun c => c = '/')).reverse)

/-- Model of Python s.lstrip with the single character '/'. -/
def lstripSlash (s : String) : String :=
  String.mk (s.data.dropWhile (fun c => c = '/'))

/- ### Model of urllib scheme detection (used by normalize_base_url) -/

/-- ASCII uppercase letter test. -/
def isUpperAZ (c : Char) : Bool := 'A' ≤ c && c ≤ 'Z'

/-- ASCII lowercase letter test. -/
def isLowerAZ (c : Char) : Bool := 'a' ≤ c && c ≤ 'z'

/-- ASCII letter test. -/
def isAsciiAlpha (c : Char) : Bool := isUpperAZ c || isLowerAZ c

/-- Characters urllib accepts inside a URL scheme. -/
def isSchemeChar (c : Char) : Bool :=
  isAsciiAlpha c || ('0' ≤ c && c ≤ '9') || c = '+' || c = '-' || c = '.'

/-- Index of the first colon in a character list, if any. -/
def colonIdx : List Char → Option Nat
  | [] => none
  | c :: cs => if c = ':' then some 0 else (colonIdx cs).map (· + 1)

/-- Model of CPython urllib.parse.urlsplit scheme detection: a scheme is
present exactly when the first colon sits at index i > 0, the first
character is an ASCII letter, and everything before the colon is a valid
scheme character.  normalize_base_url tests `urlparse(raw).scheme`. -/
def hasScheme (s : String) : Bool :=
  match colonIdx s.data with
  | none => false
  | some i =>
    decide (0 < i) &&
      (match s.data with
       | c :: _ => isAsciiAlpha c
       | [] => false) &&
      (s.data.take i).all isSchemeChar

/- ### Calendar scanner: constants (verbatim from scan_calendars.py) -/

/-- Candidate path suffixes probed on each site, in their fixed order. -/
def CANDIDATE_PATHS : List String :=
  ["", "/contact", "/contact-us", "/contactus", "/owners", "/owner",
   "/owner-services", "/property-management", "/property-management/",
   "/management", "/schedule", "/book", "/book-now", "/demo", "/consult",
   "/consultation"]

/-- External scheduler host substrings (the duplicate entry is in the source). -/
def SCHEDULER_HOST_PATTERNS : List String :=
  ["calendly.com", "hubspot.com/meetings", "acuityscheduling.com",
   "acuityscheduling.com", "youcanbook.me", "oncehub.com", "tidycal.com",
   "vcita.com", "squareup.com/appointments", "zoho.com/bookings",
   "microsoft.com/booking", "outlook.office365.com/book",
   "meetings.hubspot.com"]

/-- URL path keywords suggesting a scheduler page. -/
def SCHEDULER_PATH_KEYWORDS : List String :=
  ["schedule", "book", "booking", "appointment", "appointments", "consult",
   "consultation", "demo", "strategy-call"]

/-- The CTA regular expressions of the source, each paired with the finite
set of literal strings its (finite) language consists of; re.search on the
lowercased page text succeeds exactly when one alternative is a substring. -/
def TEXT_PATTERNS : List (String × List String) :=
  [("schedule (a )?(call|meeting|demo)",
    ["schedule call", "schedule a call", "schedule meeting",
     "schedule a meeting", "schedule demo", "schedule a demo"]),
   ("book (a )?(call|meeting|demo)",
    ["book call", "book a call", "book meeting", "book a meeting",
     "book demo", "book a demo"]),
   ("schedule your (call|demo|consultation)",
    ["schedule your call", "schedule your demo", "schedule your consultation"]),
   ("book your (call|demo|consultation)",
    ["book your call", "book your demo", "book your consultation"]),
   ("schedule an? (appointment|intro)",
    ["schedule a appointment", "schedule an appointment", "schedule a intro",
     "schedule an intro"]),
   ("owner (intro|consultation|call)",
    ["owner intro", "owner consultation", "owner call"])]

/- ### Calendar scanner: data model -/

/-- One parsed a / iframe / script tag: its href attribute, its src
attribute, and its visible text (BeautifulSoup get_text). -/
structure PTag where
  hrefAttr : Option String
  srcAttr : Option String
  anchorText : String
deriving DecidableEq

/-- A parsed HTML page: the a / iframe / script tags in document order, and
the page's full visible text (soup.get_text). -/
structure Page where
  tags : List PTag
  fullText : String
deriving DecidableEq

/-- The external URL library: urljoin and the path component of urlparse,
as used by analyze_page / scan_site. -/
structure UrlLib where
  urljoin : String → String → String
  pathOf : String → String

/-- The running best-evidence tuple of analyze_page / scan_site:
(score, evidence url, evidence type, evidence detail). -/
structure EvState where
  score : Nat
  url : Option String
  typ : Option String
  detail : Option String
deriving DecidableEq

/-- Initial best evidence: score 0 and no evidence. -/
def initEv : EvState := ⟨0, none, none, none⟩

/-- The nested update helper of analyze_page: replace the best tuple only
when the offered score is strictly greater. -/
def update (st : EvState) (score : Nat) (u t d : String) : EvState :=
  if st.score < score then ⟨score, some u, some t, some d⟩ else st

/-- Model of Python `tag.get("href") or tag.get("src")`: the first operand
unless it is falsy (None or the empty string). -/
def pyOrStr (a b : Option String) : Option String :=
  match a with
  | some s => if s = "" then b else some s
  | none => b

/-- One step of the scheduler-host loop of analyze_page. -/
def schedStep (full_url href_lower : String) (st : EvState) (p : String) : EvState :=
  if containsStr href_lower p then
    update st 100 full_url "external_scheduler"
      ("matched scheduler host pattern: " ++ p)
  else st

/-- One step of the internal path-keyword loop of analyze_page. -/
def pathStep (full_url path : String) (st : EvState) (kw : String) : EvState :=
  if containsStr path kw then
    update st (max st.score 60) full_url "internal_link"
      ("matched path keyword: " ++ kw)
  else st

/-- Body of the per-tag processing of analyze_page for a non-empty href:
scheduler-host patterns, then path keywords, then the anchor text check. -/
def scanTagCore (ul : UrlLib) (page_url : String) (st : EvState)
    (href anchorRaw : String) : EvState :=
  let full_url := ul.urljoin page_url href
  let st1 := SCHEDULER_HOST_PATTERNS.foldl (schedStep full_url (lowerStr full_url)) st
  let st2 := SCHEDULER_PATH_KEYWORDS.foldl
    (pathStep full_url (lowerStr (ul.pathOf full_url))) st1
  let anchor_text := lowerStr (pyStrip anchorRaw)
  if containsStr anchor_text "schedule" || containsStr anchor_text "book" then
    update st2 (max st2.score 50) full_url "text"
      ("anchor text: " ++ takeStr 80 anchor_text)
  else st2

/-- Processing of one a / iframe / script tag inside analyze_page: skip the
tag when it has no usable href or src, otherwise run the three checks. -/
def scanTag (ul : UrlLib) (page_url : String) (st : EvState) (tag : PTag) : EvState :=
  match pyOrStr tag.hrefAttr tag.srcAttr with
  | none => st
  | some href =>
    if href = "" then st else scanTagCore ul page_url st href tag.anchorText

/-- One step of the CTA text-pattern loop of analyze_page. -/
def textStep (page_url full_text_lower : String) (st : EvState)
    (pat : String × List String) : EvState :=
  if pat.2.any (fun alt => containsStr full_text_lower alt) then
    update st (max st.score 70) page_url "text"
      ("matched text pattern: " ++ pat.1)
  else st

/-- analyze_page of scan_calendars.py: fold the tag checks over all tags in
document order, then the CTA text patterns over the page's visible text. -/
def analyze_page (ul : UrlLib) (page : Page) (page_url : String) : EvState :=
  TEXT_PATTERNS.foldl (textStep page_url (lowerStr page.fullText))
    (page.tags.foldl (scanTag ul page_url) initEv)

/-- normalize_base_url of scan_calendars.py: strip, keep "" as is, prepend
https:// when urlparse detects no scheme, otherwise return unchanged. -/
def normalize_base_url (raw : String) : String :=
  let r := pyStrip raw
  if r = "" then ""
  else if hasScheme r then r
  else "https://" ++ r

/- ### Calendar scanner: scan_site and the coordinator -/

/-- One input company row. -/
structure Company where
  company_name : String
  website : String
deriving DecidableEq

/-- The per-company result row of the calendar scanner. -/
structure ScanResult where
  company_name : String
  website : String
  calendar_confidence : Nat
  evidence_url : Option String
  evidence_type : Option String
  evidence_detail : Option String
deriving DecidableEq

/-- The URL probed for one candidate path:
urljoin(base_url.rstrip("/") + "/", path.lstrip("/")). -/
def candidateUrl (ul : UrlLib) (base p : String) : String :=
  ul.urljoin (rstripSlash base ++ "/") (lstripSlash p)

/-- The loop body of scan_site: walk the candidate paths in order, skip
unfetched or empty pages, keep the best evidence under strict improvement,
and break as soon as the best score reaches 95.  The network is the oracle
net (url to fetched html, none on fetch failure) and soup parses html into
the Page model. -/
def scanSiteGo (ul : UrlLib) (net : String → Option String) (soup : String → Page)
    (base : String) : List String → EvState → EvState
  | [], best => best
  | p :: rest, best =>
    let url := candidateUrl ul base p
    match net url with
    | none => scanSiteGo ul net soup base rest best
    | some html =>
      if html = "" then scanSiteGo ul net soup base rest best
      else
        let e := analyze_page ul (soup html) url
        let best' := if best.score < e.score then e else best
        if 95 ≤ best'.score then best' else scanSiteGo ul net soup base rest best'

/-- scan_site of scan_calendars.py. -/
def scan_site (ul : UrlLib) (net : String → Option String) (soup : String → Page)
    (company : Company) : ScanResult :=
  let base := normalize_base_url company.website
  if base = "" then
    ⟨company.company_name, "", 0, none, none, some "no_website"⟩
  else
    let b := scanSiteGo ul net soup base CANDIDATE_PATHS initEv
    ⟨company.company_name, base, b.score, b.url, b.typ, b.detail⟩

/- ### Spec-side reformulation for the scan_site claim -/

/-- Spec side: the evidence of one candidate path, none when the page was
not successfully fetched (or came back empty). -/
def specPageEv (ul : UrlLib) (net : String → Option String) (soup : String → Page)
    (base p : String) : Option EvState :=
  let url := candidateUrl ul base p
  match net url with
  | none => none
  | some html =>
    if html = "" then none else some (analyze_page ul (soup html) url)

/-- Spec side: the prefix of candidate paths actually visited, given the
running best score: visiting stops right after the first page that brings
the running maximum to 95 or more. -/
def specVisited (ul : UrlLib) (net : String → Option String) (soup : String → Page)
    (base : String) : List String → Nat → List String
  | [], _ => []
  | p :: rest, b =>
    let b' := max b (match specPageEv ul net soup base p with
                     | none => 0
                     | some e => e.score)
    p :: (if 95 ≤ b' then [] else specVisited ul net soup base rest b')

/-- Spec side: best-evidence accumulator — a later page replaces the best
only when its score is strictly greater, so ties keep the earliest page. -/
def pickBest (b e : EvState) : EvState := if b.score < e.score then e else b

/- ### Fold lemmas for the best-evidence accumulator -/

theorem pickBest_score (b e : EvState) : (pickBest b e).score = max b.score e.score := by
  unfold pickBest
  split
  · exact (Nat.max_eq_right (Nat.le_of_lt (by assumption))).symm
  · exact (Nat.max_eq_left (Nat.le_of_not_lt (by assumption))).symm

theorem foldl_pickBest_score (l : List EvState) (b : EvState) :
    (l.foldl pickBest b).score = l.foldl (fun m e => max m e.score) b.score := by
  induction l generalizing b with
  | nil => rfl
  | cons e t ih =>
    simp only [List.foldl]
    rw [ih, pickBest_score]

theorem foldl_pickBest_mono (l : List EvState) (b : EvState) :
    b.score ≤ (l.foldl pickBest b).score := by
  induction l generalizing b with
  | nil => exact Nat.le_refl _
  | cons e t ih =>
    refine Nat.le_trans ?_ (ih (pickBest b e))
    rw [pickBest_score]
    exact Nat.le_max_left _ _

theorem foldl_pickBest_stable (l : List EvState) (b : EvState)
    (h : (l.foldl pickBest b).score ≤ b.score) : l.foldl pickBest b = b := by
  induction l generalizing b with
  | nil => rfl
  | cons e t ih =>
    simp only [List.foldl] at h ⊢
    by_cases hbe : b.score < e.score
    · exfalso
      have h1 : e.score ≤ (t.foldl pickBest (pickBest b e)).score := by
        have h2 := foldl_pickBest_mono t (pickBest b e)
        rwa [pickBest_score, Nat.max_eq_right (Nat.le_of_lt hbe)] at h2
      omega
    · have heq : pickBest b e = b := by
        unfold pickBest
        rw [if_neg hbe]
      rw [heq] at h ⊢
      exact ih b h


theorem foldl_pickBest_first (l : List EvState) (b : EvState)
    (h : b.score < (l.foldl pickBest b).score) :
    l.find? (fun e => decide ((l.foldl pickBest b).score ≤ e.score)) =
      some (l.foldl pickBest b) := by
  induction l generalizing b with
  | nil => exact absurd h (Nat.lt_irrefl _)
  | cons e t ih =>
    have hfold : (e :: t).foldl pickBest b = t.foldl pickBest (pickBest b e) := rfl
    rw [hfold] at h ⊢
    by_cases hbe : b.score < e.score
    · have hbee : pickBest b e = e := by
        unfold pickBest
        rw [if_pos hbe]
      by_cases hcont : (pickBest b e).score < (t.foldl pickBest (pickBest b e)).score
      · have hneg : ¬ ((fun x : EvState =>
            decide ((t.foldl pickBest (pickBest b e)).score ≤ x.score)) e = true) := by
          simp only [decide_eq_true_eq, Nat.not_le]
          have hsc : (pickBest b e).score = e.score := by rw [hbee]
          rw [← hsc]
          exact hcont
        rw [List.find?_cons_of_neg
          (p := fun x : EvState =>
            decide ((t.foldl pickBest (pickBest b e)).score ≤ x.score))
          (a := e) t hneg]
        exact ih (pickBest b e) hcont
      · have hstab := foldl_pickBest_stable t (pickBest b e) (Nat.le_of_not_lt hcont)
        have hpos : ((fun x : EvState =>
            decide ((t.foldl pickBest (pickBest b e)).score ≤ x.score)) e = true) := by
          simp only [decide_eq_true_eq]
          rw [hstab, hbee]
        rw [List.find?_cons_of_pos
          (p := fun x : EvState =>
            decide ((t.foldl pickBest (pickBest b e)).score ≤ x.score))
          (a := e) t hpos, hstab, hbee]
    · have hbee : pickBest b e = b := by
        unfold pickBest
        rw [if_neg hbe]
      rw [hbee] at h ⊢
      have hneg : ¬ ((fun x : EvState =>
          decide ((t.foldl pickBest b).score ≤ x.score)) e = true) := by
        simp only [decide_eq_true_eq, Nat.not_le]
        exact Nat.lt_of_le_of_lt (Nat.le_of_not_lt hbe) h
      rw [List.find?_cons_of_neg
        (p := fun x : EvState => decide ((t.foldl pickBest b).score ≤ x.score))
        (a := e) t hneg]
      exact ih b h

/- ### scan_site refines the spec-side aggregation -/

theorem scanSiteGo_spec (ul : UrlLib) (net : String → Option String)
    (soup : String → Page) (base : String) :
    ∀ (paths : List String) (best : EvState), best.score < 95 →
      scanSiteGo ul net soup base paths best =
        ((specVisited ul net soup base paths best.score).filterMap
          (specPageEv ul net soup base)).foldl pickBest best := by
  intro paths
  induction paths with
  | nil =>
    intro best _
    rfl
  | cons p rest ih =>
    intro best hb
    cases hnet : net (candidateUrl ul base p) with
    | none =>
      have hpe : specPageEv ul net soup base p = none := by
        simp only [specPageEv, hnet]
      simp only [scanSiteGo, specVisited, hnet, hpe, List.filterMap_cons]
      rw [Nat.max_zero]
      have h95 : ¬ (95 ≤ best.score) := by omega
      rw [if_neg h95]
      exact ih best hb
    | some html =>
      by_cases hhtml : html = ""
      · have hpe : specPageEv ul net soup base p = none := by
          simp only [specPageEv, hnet, if_pos hhtml]
        simp only [scanSiteGo, specVisited, hnet, hpe, if_pos hhtml,
          List.filterMap_cons]
        rw [Nat.max_zero]
        have h95 : ¬ (95 ≤ best.score) := by omega
        rw [if_neg h95]
        exact ih best hb
      · have hpe : specPageEv ul net soup base p =
            some (analyze_page ul (soup html) (candidateUrl ul base p)) := by
          simp only [specPageEv, hnet, if_neg hhtml]
        simp only [scanSiteGo, specVisited, hnet, hpe, if_neg hhtml,
          List.filterMap_cons, List.foldl_cons]
        generalize analyze_page ul (soup html) (candidateUrl ul base p) = E
        have hpk : (if best.score < E.score then E else best) = pickBest best E := rfl
        rw [hpk, ← pickBest_score best E]
        by_cases h95 : 95 ≤ (pickBest best E).score
        · rw [if_pos h95, if_pos h95]
          rfl
        · rw [if_neg h95, if_neg h95]
          exact ih (pickBest best E) (Nat.lt_of_not_le h95)

/-- Spec side: the evidence tuples of the successfully analyzed candidate
pages, in visit order, restricted to the early-exit visited prefix. -/
def specAnalyzedEvs (ul : UrlLib) (net : String → Option String)
    (soup : String → Page) (base : String) : List EvState :=
  (specVisited ul net soup base CANDIDATE_PATHS 0).filterMap
    (specPageEv ul net soup base)

/-- C1: for every company record with a non-empty website, scan_site returns
calendar_confidence equal to the maximum per-page score over the candidate
pages it analyzed, visiting the candidate paths in their fixed order
(specVisited stops right when the running best reaches 95, so later paths
are never fetched), and the returned evidence is that of the earliest
analyzed page attaining the maximum score. -/
theorem claim_c1_scan_site_best_evidence (ul : UrlLib)
    (net : String → Option String) (soup : String → Page) (c : Company)
    (hw : normalize_base_url c.website ≠ "") :
    (scan_site ul net soup c =
      (let base := normalize_base_url c.website
       let b := (specAnalyzedEvs ul net soup base).foldl pickBest initEv
       ⟨c.company_name, base, b.score, b.url, b.typ, b.detail⟩)) ∧
    (let evs := specAnalyzedEvs ul net soup (normalize_base_url c.website)
     let b := evs.foldl pickBest initEv
     b.score = evs.foldl (fun m e => max m e.score) 0 ∧
       (0 < b.score → evs.find? (fun e => decide (b.score ≤ e.score)) = some b)) := by
  have hgo := scanSiteGo_spec ul net soup (normalize_base_url c.website)
    CANDIDATE_PATHS initEv (by decide)
  constructor
  · simp only [scan_site]
    rw [if_neg hw, hgo]
    rfl
  · refine ⟨?_, ?_⟩
    · exact (foldl_pickBest_score _ _).trans rfl
    · intro hpos
      exact foldl_pickBest_first _ _ hpos

/-- Concrete witness oracles for the scan_site claim: a toy URL library, a
site whose homepage holds a Calendly link, and a network that serves only
the homepage. -/
def wUl : UrlLib := ⟨fun b r => b ++ r, fun s => s⟩

/-- Witness parser: every fetched page parses to one tag linking Calendly. -/
def wSoup : String → Page :=
  fun _ => ⟨[⟨some "https://calendly.com/acme", none, "Book a call"⟩], "Book a call"⟩

/-- Witness network: only the homepage resolves. -/
def wNet : String → Option String := fun u =>
  if u = "https://acme.com/" then some "H" else none

/-- Witness company. -/
def wCompany : Company := ⟨"Acme", "acme.com"⟩

/-- Witness for C1 at a concrete company with a non-empty website. -/
theorem claim_c1_witness :
    normalize_base_url wCompany.website ≠ "" ∧
    ((scan_site wUl wNet wSoup wCompany =
      (let base := normalize_base_url wCompany.website
       let b := (specAnalyzedEvs wUl wNet wSoup base).foldl pickBest initEv
       ⟨wCompany.company_name, base, b.score, b.url, b.typ, b.detail⟩)) ∧
    (let evs := specAnalyzedEvs wUl wNet wSoup (normalize_base_url wCompany.website)
     let b := evs.foldl pickBest initEv
     b.score = evs.foldl (fun m e => max m e.score) 0 ∧
       (0 < b.score → evs.find? (fun e => decide (b.score ≤ e.score)) = some b))) :=
  ⟨by decide, claim_c1_scan_site_best_evidence wUl wNet wSoup wCompany (by decide)⟩

/- ### Invariants of analyze_page -/

/-- A predicate preserved by every step of a fold is preserved by the fold. -/
theorem foldl_preserve {α β : Type} (f : α → β → α) (P : α → Prop)
    (hf : ∀ s b, P s → P (f s b)) :
    ∀ (l : List β) (s : α), P s → P (l.foldl f s) := by
  intro l
  induction l with
  | nil => exact fun s hs => hs
  | cons b t ih => exact fun s hs => ih (f s b) (hf s b hs)

/-- If some element of the list satisfies pred, a fold whose steps carry Q,
establish P at a pred element, and preserve P afterwards, ends in P. -/
theorem foldl_estab {α β : Type} (f : α → β → α) (P Q : α → Prop) (pred : β → Bool)
    (hQ : ∀ s b, Q s → Q (f s b)) (hP : ∀ s b, P s → P (f s b))
    (hE : ∀ s b, Q s → pred b = true → P (f s b)) :
    ∀ (l : List β) (s : α), Q s → l.any pred = true → P (l.foldl f s) := by
  intro l
  induction l with
  | nil =>
    intro s _ hcontra
    exact absurd hcontra (by simp)
  | cons b t ih =>
    intro s hs hany
    by_cases hpb : pred b = true
    · exact foldl_preserve f P hP t (f s b) (hE s b hs hpb)
    · have hor : (pred b || t.any pred) = true := by
        simpa [List.any_cons] using hany
      have hany' : t.any pred = true := by
        cases hpredb : pred b with
        | true => exact absurd hpredb hpb
        | false => simpa [hpredb] using hor
      exact ih (f s b) (hQ s b hs) hany'

/-- Invariant carried through analyze_page: the running score never exceeds
100, and a score of exactly 100 can only come with external_scheduler type. -/
def sub100 (st : EvState) : Prop :=
  st.score ≤ 100 ∧ (st.score = 100 → st.typ = some "external_scheduler")

/-- The target state of the external-scheduler claim. -/
def schedOnly (st : EvState) : Prop :=
  st.score = 100 ∧ st.typ = some "external_scheduler"

theorem update_no_fire (st : EvState) (v : Nat) (u t d : String)
    (h : ¬ st.score < v) : update st v u t d = st := by
  unfold update
  rw [if_neg h]

theorem update_fire (st : EvState) (v : Nat) (u t d : String)
    (h : st.score < v) : update st v u t d = ⟨v, some u, some t, some d⟩ := by
  unfold update
  rw [if_pos h]

theorem schedStep_sub100 (fu hl : String) (st : EvState) (p : String)
    (h : sub100 st) : sub100 (schedStep fu hl st p) := by
  unfold schedStep
  split
  · by_cases hf : st.score < 100
    · rw [update_fire _ _ _ _ _ hf]
      exact ⟨Nat.le_refl _, fun _ => rfl⟩
    · rw [update_no_fire _ _ _ _ _ hf]
      exact h
  · exact h

theorem schedStep_schedOnly (fu hl : String) (st : EvState) (p : String)
    (h : schedOnly st) : schedOnly (schedStep fu hl st p) := by
  obtain ⟨h1, h2⟩ := h
  unfold schedStep
  split
  · rw [update_no_fire _ _ _ _ _ (by omega)]
    exact ⟨h1, h2⟩
  · exact ⟨h1, h2⟩

theorem schedStep_estab (fu hl : String) (st : EvState) (p : String)
    (hq : sub100 st) (hm : containsStr hl p = true) :
    schedOnly (schedStep fu hl st p) := by
  obtain ⟨h1, h2⟩ := hq
  unfold schedStep
  rw [if_pos hm]
  by_cases hf : st.score < 100
  · rw [update_fire _ _ _ _ _ hf]
    exact ⟨rfl, rfl⟩
  · rw [update_no_fire _ _ _ _ _ hf]
    exact ⟨by omega, h2 (by omega)⟩

theorem pathStep_sub100 (fu pa : String) (st : EvState) (kw : String)
    (h : sub100 st) : sub100 (pathStep fu pa st kw) := by
  obtain ⟨h1, h2⟩ := h
  unfold pathStep
  split
  · by_cases hf : st.score < max st.score 60
    · rw [update_fire _ _ _ _ _ hf]
      refine ⟨?_, ?_⟩
      · show max st.score 60 ≤ 100
        omega
      · intro heq
        exfalso
        have heq' : max st.score 60 = 100 := heq
        omega
    · rw [update_no_fire _ _ _ _ _ hf]
      exact ⟨h1, h2⟩
  · exact ⟨h1, h2⟩

theorem pathStep_schedOnly (fu pa : String) (st : EvState) (kw : String)
    (h : schedOnly st) : schedOnly (pathStep fu pa st kw) := by
  obtain ⟨h1, h2⟩ := h
  unfold pathStep
  split
  · rw [update_no_fire _ _ _ _ _ (by omega)]
    exact ⟨h1, h2⟩
  · exact ⟨h1, h2⟩

theorem anchor_sub100 (st : EvState) (c : Bool) (u d : String) (h : sub100 st) :
    sub100 (if c then update st (max st.score 50) u "text" d else st) := by
  obtain ⟨h1, h2⟩ := h
  cases c with
  | false => exact ⟨h1, h2⟩
  | true =>
    show sub100 (update st (max st.score 50) u "text" d)
    by_cases hf : st.score < max st.score 50
    · rw [update_fire _ _ _ _ _ hf]
      refine ⟨?_, ?_⟩
      · show max st.score 50 ≤ 100
        omega
      · intro heq
        exfalso
        have heq' : max st.score 50 = 100 := heq
        omega
    · rw [update_no_fire _ _ _ _ _ hf]
      exact ⟨h1, h2⟩

theorem anchor_schedOnly (st : EvState) (c : Bool) (u d : String) (h : schedOnly st) :
    schedOnly (if c then update st (max st.score 50) u "text" d else st) := by
  obtain ⟨h1, h2⟩ := h
  cases c with
  | false => exact ⟨h1, h2⟩
  | true =>
    show schedOnly (update st (max st.score 50) u "text" d)
    rw [update_no_fire _ _ _ _ _ (by omega)]
    exact ⟨h1, h2⟩

theorem textStep_sub100 (pu ftl : String) (st : EvState) (pat : String × List String)
    (h : sub100 st) : sub100 (textStep pu ftl st pat) := by
  obtain ⟨h1, h2⟩ := h
  unfold textStep
  split
  · by_cases hf : st.score < max st.score 70
    · rw [update_fire _ _ _ _ _ hf]
      refine ⟨?_, ?_⟩
      · show max st.score 70 ≤ 100
        omega
      · intro heq
        exfalso
        have heq' : max st.score 70 = 100 := heq
        omega
    · rw [update_no_fire _ _ _ _ _ hf]
      exact ⟨h1, h2⟩
  · exact ⟨h1, h2⟩

theorem textStep_schedOnly (pu ftl : String) (st : EvState) (pat : String × List String)
    (h : schedOnly st) : schedOnly (textStep pu ftl st pat) := by
  obtain ⟨h1, h2⟩ := h
  unfold textStep
  split
  · rw [update_no_fire _ _ _ _ _ (by omega)]
    exact ⟨h1, h2⟩
  · exact ⟨h1, h2⟩

theorem scanTagCore_sub100 (ul : UrlLib) (pu : String) (st : EvState)
    (href anc : String) (h : sub100 st) : sub100 (scanTagCore ul pu st href anc) := by
  simp only [scanTagCore]
  exact anchor_sub100 _ _ _ _
    (foldl_preserve _ sub100 (pathStep_sub100 _ _) _ _
      (foldl_preserve _ sub100 (schedStep_sub100 _ _) _ _ h))

theorem scanTagCore_schedOnly (ul : UrlLib) (pu : String) (st : EvState)
    (href anc : String) (h : schedOnly st) : schedOnly (scanTagCore ul pu st href anc) := by
  simp only [scanTagCore]
  exact anchor_schedOnly _ _ _ _
    (foldl_preserve _ schedOnly (pathStep_schedOnly _ _) _ _
      (foldl_preserve _ schedOnly (schedStep_schedOnly _ _) _ _ h))

theorem scanTagCore_estab (ul : UrlLib) (pu : String) (st : EvState)
    (href anc : String) (hq : sub100 st)
    (hm : SCHEDULER_HOST_PATTERNS.any
      (fun p => containsStr (lowerStr (ul.urljoin pu href)) p) = true) :
    schedOnly (scanTagCore ul pu st href anc) := by
  simp only [scanTagCore]
  exact anchor_schedOnly _ _ _ _
    (foldl_preserve _ schedOnly (pathStep_schedOnly _ _) _ _
      (foldl_estab _ schedOnly sub100 _ (schedStep_sub100 _ _)
        (schedStep_schedOnly _ _) (schedStep_estab _ _)
        SCHEDULER_HOST_PATTERNS st hq hm))

/-- Decides whether one tag carries a link whose resolved absolute URL
contains a known external-scheduler host substring (the condition of the
score-100 branch of analyze_page). -/
def tagMatchesScheduler (ul : UrlLib) (page_url : String) (tag : PTag) : Bool :=
  match pyOrStr tag.hrefAttr tag.srcAttr with
  | none => false
  | some href =>
    if href = "" then false
    else SCHEDULER_HOST_PATTERNS.any
      (fun p => containsStr (lowerStr (ul.urljoin page_url href)) p)

theorem scanTag_sub100 (ul : UrlLib) (pu : String) (st : EvState) (tag : PTag)
    (h : sub100 st) : sub100 (scanTag ul pu st tag) := by
  unfold scanTag
  cases pyOrStr tag.hrefAttr tag.srcAttr with
  | none => exact h
  | some href =>
    show sub100 (if href = "" then st else scanTagCore ul pu st href tag.anchorText)
    by_cases he : href = ""
    · rw [if_pos he]
      exact h
    · rw [if_neg he]
      exact scanTagCore_sub100 _ _ _ _ _ h

theorem scanTag_schedOnly (ul : UrlLib) (pu : String) (st : EvState) (tag : PTag)
    (h : schedOnly st) : schedOnly (scanTag ul pu st tag) := by
  unfold scanTag
  cases pyOrStr tag.hrefAttr tag.srcAttr with
  | none => exact h
  | some href =>
    show schedOnly (if href = "" then st else scanTagCore ul pu st href tag.anchorText)
    by_cases he : href = ""
    · rw [if_pos he]
      exact h
    · rw [if_neg he]
      exact scanTagCore_schedOnly _ _ _ _ _ h

theorem scanTag_estab (ul : UrlLib) (pu : String) (st : EvState) (tag : PTag)
    (hq : sub100 st) (hm : tagMatchesScheduler ul pu tag = true) :
    schedOnly (scanTag ul pu st tag) := by
  unfold scanTag
  unfold tagMatchesScheduler at hm
  cases hpe : pyOrStr tag.hrefAttr tag.srcAttr with
  | none =>
    rw [hpe] at hm
    exact Bool.noConfusion hm
  | some href =>
    rw [hpe] at hm
    have hm' : (if href = "" then false
        else SCHEDULER_HOST_PATTERNS.any
          (fun p => containsStr (lowerStr (ul.urljoin pu href)) p)) = true := hm
    show schedOnly (if href = "" then st else scanTagCore ul pu st href tag.anchorText)
    by_cases he : href = ""
    · rw [if_pos he] at hm'
      exact Bool.noConfusion hm'
    · rw [if_neg he] at hm'
      rw [if_neg he]
      exact scanTagCore_estab _ _ _ _ _ hq hm'

theorem initEv_sub100 : sub100 initEv :=
  ⟨by decide, fun h => absurd h (by decide)⟩

/-- C4: if any link, iframe or script of the page resolves to a URL that
contains a known external-scheduler host substring, analyze_page returns
score exactly 100 with evidence type external_scheduler, whatever other
signals the page holds. -/
theorem claim_c4_external_scheduler_score (ul : UrlLib) (page : Page)
    (page_url : String)
    (h : page.tags.any (tagMatchesScheduler ul page_url) = true) :
    (analyze_page ul page page_url).score = 100 ∧
      (analyze_page ul page page_url).typ = some "external_scheduler" := by
  have hs : schedOnly (analyze_page ul page page_url) := by
    unfold analyze_page
    exact foldl_preserve _ schedOnly (textStep_schedOnly _ _) _ _
      (foldl_estab _ schedOnly sub100 _ (scanTag_sub100 ul page_url)
        (scanTag_schedOnly ul page_url) (scanTag_estab ul page_url)
        page.tags initEv initEv_sub100 h)
  exact hs

/-- Witness page for C4: one anchor tag pointing at a Calendly URL. -/
def wPage : Page := ⟨[⟨some "https://calendly.com/x", none, "hi"⟩], "hello"⟩

/-- Witness for C4 at a concrete page containing a scheduler link. -/
theorem claim_c4_witness :
    wPage.tags.any (tagMatchesScheduler wUl "https://acme.com/") = true ∧
    ((analyze_page wUl wPage "https://acme.com/").score = 100 ∧
      (analyze_page wUl wPage "https://acme.com/").typ = some "external_scheduler") :=
  ⟨by decide, claim_c4_external_scheduler_score wUl wPage "https://acme.com/" (by decide)⟩

/-- Invariant for the score/evidence claim: the running state is either the
initial zero state (all fields none) or carries one of the four positive
scores with all evidence fields set. -/
def goodEv (st : EvState) : Prop :=
  st = initEv ∨
    ((st.score = 50 ∨ st.score = 60 ∨ st.score = 70 ∨ st.score = 100) ∧
      st.url ≠ none ∧ st.typ ≠ none ∧ st.detail ≠ none)

theorem goodEv_score (st : EvState) (h : goodEv st) :
    st.score = 0 ∨ st.score = 50 ∨ st.score = 60 ∨ st.score = 70 ∨
      st.score = 100 := by
  rcases h with h | ⟨hs, _⟩
  · subst h
    left
    rfl
  · right
    exact hs

theorem update_goodEv (st : EvState) (v : Nat) (u t d : String)
    (hv : v = 50 ∨ v = 60 ∨ v = 70 ∨ v = 100) (h : goodEv st) :
    goodEv (update st v u t d) := by
  by_cases hf : st.score < v
  · rw [update_fire _ _ _ _ _ hf]
    right
    refine ⟨hv, ?_, ?_, ?_⟩ <;> simp
  · rw [update_no_fire _ _ _ _ _ hf]
    exact h

theorem schedStep_goodEv (fu hl : String) (st : EvState) (p : String)
    (h : goodEv st) : goodEv (schedStep fu hl st p) := by
  unfold schedStep
  split
  · exact update_goodEv _ _ _ _ _ (by omega) h
  · exact h

theorem pathStep_goodEv (fu pa : String) (st : EvState) (kw : String)
    (h : goodEv st) : goodEv (pathStep fu pa st kw) := by
  have hs := goodEv_score st h
  unfold pathStep
  split
  · exact update_goodEv _ _ _ _ _ (by omega) h
  · exact h

theorem anchor_goodEv (st : EvState) (c : Bool) (u d : String) (h : goodEv st) :
    goodEv (if c then update st (max st.score 50) u "text" d else st) := by
  have hs := goodEv_score st h
  cases c with
  | false => exact h
  | true =>
    show goodEv (update st (max st.score 50) u "text" d)
    exact update_goodEv _ _ _ _ _ (by omega) h

theorem textStep_goodEv (pu ftl : String) (st : EvState) (pat : String × List String)
    (h : goodEv st) : goodEv (textStep pu ftl st pat) := by
  have hs := goodEv_score st h
  unfold textStep
  split
  · exact update_goodEv _ _ _ _ _ (by omega) h
  · exact h

theorem scanTagCore_goodEv (ul : UrlLib) (pu : String) (st : EvState)
    (href anc : String) (h : goodEv st) : goodEv (scanTagCore ul pu st href anc) := by
  simp only [scanTagCore]
  exact anchor_goodEv _ _ _ _
    (foldl_preserve _ goodEv (pathStep_goodEv _ _) _ _
      (foldl_preserve _ goodEv (schedStep_goodEv _ _) _ _ h))

theorem scanTag_goodEv (ul : UrlLib) (pu : String) (st : EvState) (tag : PTag)
    (h : goodEv st) : goodEv (scanTag ul pu st tag) := by
  unfold scanTag
  cases pyOrStr tag.hrefAttr tag.srcAttr with
  | none => exact h
  | some href =>
    show goodEv (if href = "" then st else scanTagCore ul pu st href tag.anchorText)
    by_cases he : href = ""
    · rw [if_pos he]
      exact h
    · rw [if_neg he]
      exact scanTagCore_goodEv _ _ _ _ _ h

theorem analyze_page_goodEv (ul : UrlLib) (page : Page) (pu : String) :
    goodEv (analyze_page ul page pu) := by
  unfold analyze_page
  exact foldl_preserve _ goodEv (textStep_goodEv _ _) _ _
    (foldl_preserve _ goodEv (scanTag_goodEv ul pu) _ _ (Or.inl rfl))

/-- C9: analyze_page always returns a score in the set 0, 50, 60, 70, 100;
at score 0 the evidence URL, type and detail are all none, and at every
non-zero score each of the evidence URL, type and detail is non-none. -/
theorem claim_c9_analyze_page_range (ul : UrlLib) (page : Page)
    (page_url : String) :
    ((analyze_page ul page page_url).score = 0 ∨
      (analyze_page ul page page_url).score = 50 ∨
      (analyze_page ul page page_url).score = 60 ∨
      (analyze_page ul page page_url).score = 70 ∨
      (analyze_page ul page page_url).score = 100) ∧
    ((analyze_page ul page page_url).score = 0 →
      (analyze_page ul page page_url).url = none ∧
        (analyze_page ul page page_url).typ = none ∧
        (analyze_page ul page page_url).detail = none) ∧
    ((analyze_page ul page page_url).score ≠ 0 →
      (analyze_page ul page page_url).url ≠ none ∧
        (analyze_page ul page page_url).typ ≠ none ∧
        (analyze_page ul page page_url).detail ≠ none) := by
  have h := analyze_page_goodEv ul page page_url
  refine ⟨goodEv_score _ h, ?_, ?_⟩
  · intro h0
    rcases h with h | ⟨hs, -, -, -⟩
    · rw [h]
      exact ⟨rfl, rfl, rfl⟩
    · exfalso
      omega
  · intro h0
    rcases h with h | ⟨-, hu, ht, hd⟩
    · exfalso
      apply h0
      rw [h]
      rfl
    · exact ⟨hu, ht, hd⟩

/-- Witness page for C9 with no scheduling signal at all. -/
def wEmptyPage : Page := ⟨[], "nothing to see here"⟩

/-- Witness for C9: the scheduler-link page scores non-zero with every
evidence field set, and the signal-free page scores 0 with every evidence
field none. -/
theorem claim_c9_witness :
    ((analyze_page wUl wPage "https://acme.com/").score ≠ 0 ∧
      ((analyze_page wUl wPage "https://acme.com/").url ≠ none ∧
        (analyze_page wUl wPage "https://acme.com/").typ ≠ none ∧
        (analyze_page wUl wPage "https://acme.com/").detail ≠ none)) ∧
    ((analyze_page wUl wEmptyPage "https://acme.com/").score = 0 ∧
      ((analyze_page wUl wEmptyPage "https://acme.com/").url = none ∧
        (analyze_page wUl wEmptyPage "https://acme.com/").typ = none ∧
        (analyze_page wUl wEmptyPage "https://acme.com/").detail = none)) :=
  ⟨⟨by decide,
    (claim_c9_analyze_page_range wUl wPage "https://acme.com/").2.2 (by decide)⟩,
   ⟨by decide,
    (claim_c9_analyze_page_range wUl wEmptyPage "https://acme.com/").2.1 (by decide)⟩⟩

/- ### URL normalizer claims -/

theorem leadsWith_refl_append (l m : List Char) : leadsWith l (l ++ m) = true := by
  induction l with
  | nil => rfl
  | cons c t ih =>
    show (decide (c = c) && leadsWith t (t ++ m)) = true
    rw [ih]
    simp

/-- C8 counterexample: the input "mailto:x" contains no "://" and is
non-empty after trimming, yet normalize_base_url returns it unchanged
because urlparse detects the scheme "mailto", so the output does not start
with https:// — refuting the claim's "lacking ://" trigger condition. -/
theorem claim_c8_counterexample :
    pyStrip "mailto:x" ≠ "" ∧
    containsStr "mailto:x" "://" = false ∧
    normalize_base_url "mailto:x" = "mailto:x" ∧
    leadsWith "https://".data (normalize_base_url "mailto:x").data = false := by
  decide

/-- C8 amended: normalize_base_url trims whitespace and returns "" for an
empty trimmed input; when the trimmed input is non-empty and urlparse
detects no scheme (no leading ASCII letter followed by scheme characters
and a colon), the result is https:// prepended to the trimmed input (hence
starts with https://); when a scheme is detected the trimmed input is
returned unchanged. -/
theorem claim_c8_normalize_base_url (raw : String) :
    (pyStrip raw = "" → normalize_base_url raw = "") ∧
    (pyStrip raw ≠ "" → hasScheme (pyStrip raw) = false →
      normalize_base_url raw = "https://" ++ pyStrip raw ∧
      leadsWith "https://".data (normalize_base_url raw).data = true) ∧
    (pyStrip raw ≠ "" → hasScheme (pyStrip raw) = true →
      normalize_base_url raw = pyStrip raw) := by
  refine ⟨?_, ?_, ?_⟩
  · intro h
    simp only [normalize_base_url, h]
    simp
  · intro h1 h2
    have he : normalize_base_url raw = "https://" ++ pyStrip raw := by
      simp only [normalize_base_url, if_neg h1, h2]
      simp
    refine ⟨he, ?_⟩
    rw [he, String.data_append]
    exact leadsWith_refl_append _ _
  · intro h1 h2
    simp only [normalize_base_url, if_neg h1, h2]
    simp

/-- Witness for C8 at the concrete input " example.com ". -/
theorem claim_c8_witness :
    normalize_base_url " example.com " = "https://" ++ pyStrip " example.com " ∧
    leadsWith "https://".data (normalize_base_url " example.com ").data = true :=
  (claim_c8_normalize_base_url " example.com ").2.1 (by decide) (by decide)

/- ### Page fetcher claims -/

/-- The outcome of one HTTP GET as seen by the fetchers: either a resolved
response with a final status and a body text, or a raised transport
exception (timeout, DNS failure, connection error). -/
inductive HttpOutcome where
  | resp (status : Nat) (body : String)
  | exc (msg : String)
deriving DecidableEq

/-- fetch of scan_calendars.py over the outcome model: a resolved status of
400 or more gives none, any other resolved status gives the body text, and
every exception is swallowed into none. -/
def fetch (o : HttpOutcome) (url : String) : String × Option String :=
  match o with
  | .resp s b => if 400 ≤ s then (url, none) else (url, some b)
  | .exc _ => (url, none)

/-- fetch_html of scan_phone_numbers.py: only a status of exactly 200
returns the body text; every other status and every exception yields "". -/
def fetch_html (o : HttpOutcome) : String :=
  match o with
  | .resp s b => if s = 200 then b else ""
  | .exc _ => ""

/-- C3 counterexample: a resolved status 204 (below 400) with body "hello".
The calendar-mode fetch returns the body, but the phone-mode fetch_html
returns "" — the claimed shared "status < 400 returns the body" contract
fails for fetch_html, which only accepts status exactly 200. -/
theorem claim_c3_counterexample :
    (204 < 400) ∧
    fetch (HttpOutcome.resp 204 "hello") "u" = ("u", some "hello") ∧
    fetch_html (HttpOutcome.resp 204 "hello") = "" ∧
    fetch_html (HttpOutcome.resp 204 "hello") ≠ "hello" := by
  decide

/-- C3 amended: the calendar fetch returns the body exactly for resolved
status < 400 and no content otherwise; the phone fetch_html returns the
body exactly for status 200 and "" for any other status; neither propagates
an exception — the exception outcome collapses to no content for both. -/
theorem claim_c3_fetch_contract (url : String) (s : Nat) (b m : String) :
    (s < 400 → fetch (HttpOutcome.resp s b) url = (url, some b)) ∧
    (400 ≤ s → fetch (HttpOutcome.resp s b) url = (url, none)) ∧
    fetch (HttpOutcome.exc m) url = (url, none) ∧
    (fetch_html (HttpOutcome.resp s b) = if s = 200 then b else "") ∧
    fetch_html (HttpOutcome.exc m) = "" := by
  refine ⟨?_, ?_, rfl, rfl, rfl⟩
  · intro h
    simp only [fetch]
    rw [if_neg (by omega)]
  · intro h
    simp only [fetch]
    rw [if_pos h]

/-- Witness for C3 amended at statuses 200 and 404. -/
theorem claim_c3_witness :
    (fetch (HttpOutcome.resp 200 "body") "u" = ("u", some "body")) ∧
    (fetch (HttpOutcome.resp 404 "body") "u" = ("u", none)) :=
  ⟨(claim_c3_fetch_contract "u" 200 "body" "m").1 (by decide),
   (claim_c3_fetch_contract "u" 404 "body" "m").2.1 (by decide)⟩

/- ### Scan coordinator claim -/

/-- The result-collection loop of main in both scanners, run over the
per-company scan outcomes: main awaits each task with no per-company
try/except, so an exception raised inside one company's scan re-raises at
the await and aborts the whole collection.  Modelled in the Except monad
over each company's scan outcome. -/
def coordinatorCollect {ρ : Type} (scan : Company → Except String ρ) :
    List Company → Except String (List ρ)
  | [] => Except.ok []
  | c :: cs =>
    match scan c with
    | Except.error e => Except.error e
    | Except.ok r =>
      match coordinatorCollect scan cs with
      | Except.error e => Except.error e
      | Except.ok rs => Except.ok (r :: rs)

/-- C2 evaluation at the failing input: with two submitted companies where
the first company's scan raises (as scan_site does for website "[", whose
urljoin raises ValueError before any fetch), the coordinator propagates the
exception and produces no completed result list at all — fewer than one
result per submitted company, refuting the claimed per-company catch. -/
theorem claim_c2_coordinator_aborts :
    coordinatorCollect
      (fun c => if c.website = "["
        then Except.error "ValueError: Invalid IPv6 URL"
        else Except.ok (⟨c.company_name, c.website, 0, none, none, none⟩ : ScanResult))
      [⟨"Alpha", "["⟩, ⟨"Beta", "beta.com"⟩] =
      Except.error "ValueError: Invalid IPv6 URL" := by
  rfl

/- ### Phone sniper: constants (verbatim from utils/scan_phone_numbers.py) -/

/-- High-probability pages scanned in phone mode. -/
def PAGES_TO_SCAN : List String :=
  ["/contact", "/contact-us", "/about", "/about-us", "/our-team",
   "/meet-the-team", "/staff", "/owners", "/property-management", "/emergency"]

/-- Context tokens that disqualify a number unconditionally. -/
def BLACKLIST_CONTEXT : List String :=
  ["llc", "license", "broker", "registered", "copyright", "reserved",
   "fax", "facsimile", "toll free", "reservations", "bookings", "front desk"]

/-- Keywords of the OPS_MAINTENANCE category. -/
def OPS_KEYWORDS : List String :=
  ["emergency", "after hours", "urgent", "maintenance", "on-call",
   "housekeeping", "cleaning", "inspector", "field"]

/-- Keywords of the DIRECT_MOBILE category. -/
def DIRECT_KEYWORDS : List String :=
  ["cell", "mobile", "direct", "text", "sms", "personal"]

/-- Keywords of the GROWTH_OWNER category. -/
def GROWTH_KEYWORDS : List String :=
  ["owner services", "property management", "list with us", "homeowner",
   "revenue", "partnership"]

/-- The false-positive phrases of extract_name_before_number, exactly as
written in the source (capitalized). -/
def FALSE_POSITIVE_NAMES : List String :=
  ["Contact Us", "Call Us", "Toll Free", "Phone Number", "Emergency Call",
   "After Hours"]

/- ### Phone sniper: data model and helpers -/

/-- One emitted phone lead.  category and suggested_strategy mirror the
dynamically typed Python locals, which start out as None. -/
structure SniperResult where
  company_name : String
  website : String
  phone_number : String
  contact_name : Option String
  role_or_context : String
  category : Option String
  suggested_strategy : Option String
  confidence_score : Nat
deriving DecidableEq

/-- Python str.split(): split on whitespace runs, dropping empty pieces. -/
def splitWsGo : List Char → List Char → List (List Char)
  | [], acc => if acc.isEmpty then [] else [acc.reverse]
  | c :: cs, acc =>
    if isSpaceRe c then
      if acc.isEmpty then splitWsGo cs [] else acc.reverse :: splitWsGo cs []
    else splitWsGo cs (c :: acc)

/-- clean_text of scan_phone_numbers.py: " ".join(text.split()). -/
def clean_text (l : List Char) : String :=
  String.intercalate " " ((splitWsGo l []).map String.mk)

/-- One capitalized word of the name pattern: an uppercase ASCII letter
followed by a maximal nonempty run of lowercase ASCII letters; returns the
matched characters and the rest of the input. -/
def matchWord : List Char → Option (List Char × List Char)
  | [] => none
  | c :: cs =>
    if isUpperAZ c then
      let low := cs.takeWhile isLowerAZ
      if low.isEmpty then none
      else some (c :: low, cs.drop low.length)
    else none

/-- The name pattern anchored at the start of the input: one capitalized
word followed by one or two further whitespace-separated capitalized words,
greedily preferring two.  The character classes involved are disjoint, so
the greedy semantics of re.search need no backtracking. -/
def tryNameAt (cs : List Char) : Option (List Char) :=
  match matchWord cs with
  | none => none
  | some (w1, r1) =>
    match r1 with
    | [] => none
    | c2 :: r2 =>
      if isSpaceRe c2 then
        match matchWord r2 with
        | none => none
        | some (w2, r3) =>
          match r3 with
          | [] => some (w1 ++ c2 :: w2)
          | c3 :: r4 =>
            if isSpaceRe c3 then
              match matchWord r4 with
              | none => some (w1 ++ c2 :: w2)
              | some (w3, _) => some (w1 ++ c2 :: w2 ++ c3 :: w3)
            else some (w1 ++ c2 :: w2)
      else none

/-- Leftmost search of the name pattern over the input (re.search). -/
def searchName : List Char → Option (List Char)
  | [] => none
  | c :: cs =>
    match tryNameAt (c :: cs) with
    | some w => some w
    | none => searchName cs

/-- extract_name_before_number of scan_phone_numbers.py: inspect the last
40 characters before the number for 2 to 3 consecutive capitalized words,
then apply the false-positive filter, which compares the lowercased name
against the capitalized literals of FALSE_POSITIVE_NAMES. -/
def extract_name_before_number (text_before : String) : Option String :=
  let segment := lastN 40 text_before.data
  match searchName segment with
  | none => none
  | some w =>
    let name := String.mk w
    if FALSE_POSITIVE_NAMES.contains (lowerStr name) then none
    else some name

/-- text_content[max(0, match_start - 60) : match_start]. -/
def textBeforeOf (text : List Char) (ms : Nat) : List Char :=
  (text.take ms).drop (ms - 60)

/-- text_content[match_end : min(len, match_end + 60)]. -/
def textAfterOf (text : List Char) (me : Nat) : List Char :=
  (text.drop me).take 60

/-- The lowercased context around a match: text_before + " " + text_after. -/
def fullContextOf (text : List Char) (ms me : Nat) : List Char :=
  lowerChars (textBeforeOf text ms ++ ' ' :: textAfterOf text me)

/-- Keyword-set membership test over the context (any keyword substring). -/
def hasKw (ctx : List Char) (kws : List String) : Bool :=
  kws.any (fun k => containsChars ctx k.data)

/-- The sequential category check of analyze_number: the first matching
keyword set fixes category, strategy, and confidence. -/
def catOf (ctx : List Char) : Option String × Option String × Nat :=
  if hasKw ctx OPS_KEYWORDS then
    (some "OPS_MAINTENANCE", some "Vendor/Maintenance Script", 90)
  else if hasKw ctx DIRECT_KEYWORDS then
    (some "DIRECT_MOBILE", some "Text First / Direct Call", 95)
  else if hasKw ctx GROWTH_KEYWORDS then
    (some "GROWTH_OWNER", some "Asset Protection Script", 85)
  else (none, none, 0)

/-- The name-check adjustment of analyze_number: a found name upgrades a
category-less match to NAMED_CONTACT at 80, and boosts a categorized match
to confidence 100. -/
def nameAdjust (extracted : Option String)
    (c0 : Option String × Option String × Nat) :
    Option String × Option String × Nat :=
  match extracted, c0 with
  | some _, (none, _, _) => (some "NAMED_CONTACT", some "Name Drop Call", 80)
  | some _, (some cat, strat, _) => (some cat, strat, 100)
  | none, c => c

/-- The final decision of analyze_number: a match with no category is
dropped; otherwise the SniperResult record is built (company fields are
filled later by process_company). -/
def finishResult (formatted : String) (extracted : Option String)
    (text_before text_after : List Char)
    (c1 : Option String × Option String × Nat) : Option SniperResult :=
  match c1 with
  | (none, _, _) => none
  | (some cat, strat, conf) =>
    some ⟨"", "", formatted, extracted,
      clean_text (lastN 30 text_before ++ (" [NUM] ".data) ++ text_after.take 30),
      some cat, strat, conf⟩

/-- analyze_number of scan_phone_numbers.py, over the nationally formatted
number, the page text, and the match span. -/
def analyze_number (formatted : String) (text : List Char) (ms me : Nat) :
    Option SniperResult :=
  let text_before := textBeforeOf text ms
  let text_after := textAfterOf text me
  let full_context := fullContextOf text ms me
  if hasKw full_context BLACKLIST_CONTEXT then none
  else
    let c0 := catOf full_context
    let extracted := extract_name_before_number (String.mk text_before)
    let c1 := nameAdjust extracted c0
    finishResult formatted extracted text_before text_after c1

/-- One phonenumbers matcher hit: its span in the text and the nationally
formatted number produced by format_number. -/
structure PMatch where
  start : Nat
  stop : Nat
  formatted : String
deriving DecidableEq

/-- The per-page body of process_company: run the matcher, skip the page
entirely when it yields more than 15 matches (density guard), otherwise
analyze each match and keep the surviving leads, deduplicated by formatted
number through the seen set carried in the accumulator. -/
def scanPage (matcher : List Char → List PMatch) (text : List Char)
    (company_name website : String)
    (acc : List SniperResult × List String) : List SniperResult × List String :=
  let found := matcher text
  if 15 < found.length then acc
  else
    found.foldl (fun a m =>
      match analyze_number m.formatted text m.start m.stop with
      | none => a
      | some r =>
        if a.2.contains r.phone_number then a
        else (a.1 ++ [{ r with company_name := company_name, website := website }],
          r.phone_number :: a.2)) acc

/- ### Phone sniper: equation lemmas -/

theorem nameAdjust_none (c0 : Option String × Option String × Nat) :
    nameAdjust none c0 = c0 := rfl

theorem nameAdjust_some_none (nm : String) (s : Option String) (n : Nat) :
    nameAdjust (some nm) (none, s, n) =
      (some "NAMED_CONTACT", some "Name Drop Call", 80) := rfl

theorem nameAdjust_some_some (nm cat : String) (s : Option String) (n : Nat) :
    nameAdjust (some nm) (some cat, s, n) = (some cat, s, 100) := rfl

theorem finishResult_none (f : String) (e : Option String)
    (tb ta : List Char) (s : Option String) (n : Nat) :
    finishResult f e tb ta (none, s, n) = none := rfl

theorem finishResult_some (f : String) (e : Option String)
    (tb ta : List Char) (cat : String) (s : Option String) (n : Nat) :
    finishResult f e tb ta (some cat, s, n) =
      some ⟨"", "", f, e,
        clean_text (lastN 30 tb ++ (" [NUM] ".data) ++ ta.take 30),
        some cat, s, n⟩ := rfl

theorem catOf_cases (ctx : List Char) :
    catOf ctx = (none, none, 0) ∨
    catOf ctx = (some "OPS_MAINTENANCE", some "Vendor/Maintenance Script", 90) ∨
    catOf ctx = (some "DIRECT_MOBILE", some "Text First / Direct Call", 95) ∨
    catOf ctx = (some "GROWTH_OWNER", some "Asset Protection Script", 85) := by
  unfold catOf
  split
  · right
    left
    rfl
  · split
    · right
      right
      left
      rfl
    · split
      · right
        right
        right
        rfl
      · left
        rfl

theorem catOf_ops (ctx : List Char) (h : hasKw ctx OPS_KEYWORDS = true) :
    catOf ctx = (some "OPS_MAINTENANCE", some "Vendor/Maintenance Script", 90) := by
  unfold catOf
  rw [if_pos h]

theorem catOf_direct (ctx : List Char) (h1 : hasKw ctx OPS_KEYWORDS = false)
    (h2 : hasKw ctx DIRECT_KEYWORDS = true) :
    catOf ctx = (some "DIRECT_MOBILE", some "Text First / Direct Call", 95) := by
  unfold catOf
  rw [if_neg (by simp [h1]), if_pos h2]

theorem catOf_growth (ctx : List Char) (h1 : hasKw ctx OPS_KEYWORDS = false)
    (h2 : hasKw ctx DIRECT_KEYWORDS = false)
    (h3 : hasKw ctx GROWTH_KEYWORDS = true) :
    catOf ctx = (some "GROWTH_OWNER", some "Asset Protection Script", 85) := by
  unfold catOf
  rw [if_neg (by simp [h1]), if_neg (by simp [h2]), if_pos h3]

/-- C10: every SniperResult that analyze_number emits has a non-null
category, a non-null suggested strategy, and a confidence score among
80, 85, 90, 95, 100 — never below 80. -/
theorem claim_c10_sniper_invariant (formatted : String) (text : List Char)
    (ms me : Nat) (r : SniperResult)
    (h : analyze_number formatted text ms me = some r) :
    r.category ≠ none ∧ r.suggested_strategy ≠ none ∧
      (r.confidence_score = 80 ∨ r.confidence_score = 85 ∨
        r.confidence_score = 90 ∨ r.confidence_score = 95 ∨
        r.confidence_score = 100) := by
  simp only [analyze_number] at h
  by_cases hbl : hasKw (fullContextOf text ms me) BLACKLIST_CONTEXT = true
  · rw [if_pos hbl] at h
    exact Option.noConfusion h
  · rw [if_neg hbl] at h
    cases hext : extract_name_before_number (String.mk (textBeforeOf text ms)) with
    | none =>
      rw [hext, nameAdjust_none] at h
      rcases catOf_cases (fullContextOf text ms me) with hc | hc | hc | hc
      · rw [hc, finishResult_none] at h
        exact Option.noConfusion h
      · rw [hc, finishResult_some] at h
        injection h with h
        subst h
        exact ⟨by simp, by simp, by simp⟩
      · rw [hc, finishResult_some] at h
        injection h with h
        subst h
        exact ⟨by simp, by simp, by simp⟩
      · rw [hc, finishResult_some] at h
        injection h with h
        subst h
        exact ⟨by simp, by simp, by simp⟩
    | some nm =>
      rw [hext] at h
      rcases catOf_cases (fullContextOf text ms me) with hc | hc | hc | hc
      · rw [hc, nameAdjust_some_none, finishResult_some] at h
        injection h with h
        subst h
        exact ⟨by simp, by simp, by simp⟩
      · rw [hc, nameAdjust_some_some, finishResult_some] at h
        injection h with h
        subst h
        exact ⟨by simp, by simp, by simp⟩
      · rw [hc, nameAdjust_some_some, finishResult_some] at h
        injection h with h
        subst h
        exact ⟨by simp, by simp, by simp⟩
      · rw [hc, nameAdjust_some_some, finishResult_some] at h
        injection h with h
        subst h
        exact ⟨by simp, by simp, by simp⟩

/-- Witness for C10 at a concrete maintenance-line match. -/
theorem claim_c10_witness :
    analyze_number "555-123-4567" "emergency 5551234567".data 10 20 =
      some ⟨"", "", "555-123-4567", none, "emergency [NUM]",
        some "OPS_MAINTENANCE", some "Vendor/Maintenance Script", 90⟩ ∧
    ((⟨"", "", "555-123-4567", none, "emergency [NUM]",
        some "OPS_MAINTENANCE", some "Vendor/Maintenance Script", 90⟩ :
          SniperResult).category ≠ none ∧
      (⟨"", "", "555-123-4567", none, "emergency [NUM]",
        some "OPS_MAINTENANCE", some "Vendor/Maintenance Script", 90⟩ :
          SniperResult).suggested_strategy ≠ none ∧
      ((⟨"", "", "555-123-4567", none, "emergency [NUM]",
        some "OPS_MAINTENANCE", some "Vendor/Maintenance Script", 90⟩ :
          SniperResult).confidence_score = 80 ∨
       (⟨"", "", "555-123-4567", none, "emergency [NUM]",
        some "OPS_MAINTENANCE", some "Vendor/Maintenance Script", 90⟩ :
          SniperResult).confidence_score = 85 ∨
       (⟨"", "", "555-123-4567", none, "emergency [NUM]",
        some "OPS_MAINTENANCE", some "Vendor/Maintenance Script", 90⟩ :
          SniperResult).confidence_score = 90 ∨
       (⟨"", "", "555-123-4567", none, "emergency [NUM]",
        some "OPS_MAINTENANCE", some "Vendor/Maintenance Script", 90⟩ :
          SniperResult).confidence_score = 95 ∨
       (⟨"", "", "555-123-4567", none, "emergency [NUM]",
        some "OPS_MAINTENANCE", some "Vendor/Maintenance Script", 90⟩ :
          SniperResult).confidence_score = 100)) :=
  ⟨by decide,
   claim_c10_sniper_invariant "555-123-4567" "emergency 5551234567".data 10 20
     ⟨"", "", "555-123-4567", none, "emergency [NUM]",
       some "OPS_MAINTENANCE", some "Vendor/Maintenance Script", 90⟩ (by decide)⟩

/-- C5: for a match surviving the blacklist, the category is fixed by the
first matching keyword set in the order operations/maintenance (90), then
direct/mobile (95), then owner/growth (85); an extracted name raises the
confidence to 100, and a categorized match without a name stays strictly
below 100. -/
theorem claim_c5_category_priority (formatted : String) (text : List Char)
    (ms me : Nat)
    (hbl : hasKw (fullContextOf text ms me) BLACKLIST_CONTEXT = false) :
    (hasKw (fullContextOf text ms me) OPS_KEYWORDS = true →
      (analyze_number formatted text ms me).map
          (fun r => (r.category, r.suggested_strategy, r.confidence_score)) =
        some (some "OPS_MAINTENANCE", some "Vendor/Maintenance Script",
          if (extract_name_before_number
              (String.mk (textBeforeOf text ms))).isSome then 100 else 90)) ∧
    (hasKw (fullContextOf text ms me) OPS_KEYWORDS = false →
      hasKw (fullContextOf text ms me) DIRECT_KEYWORDS = true →
      (analyze_number formatted text ms me).map
          (fun r => (r.category, r.suggested_strategy, r.confidence_score)) =
        some (some "DIRECT_MOBILE", some "Text First / Direct Call",
          if (extract_name_before_number
              (String.mk (textBeforeOf text ms))).isSome then 100 else 95)) ∧
    (hasKw (fullContextOf text ms me) OPS_KEYWORDS = false →
      hasKw (fullContextOf text ms me) DIRECT_KEYWORDS = false →
      hasKw (fullContextOf text ms me) GROWTH_KEYWORDS = true →
      (analyze_number formatted text ms me).map
          (fun r => (r.category, r.suggested_strategy, r.confidence_score)) =
        some (some "GROWTH_OWNER", some "Asset Protection Script",
          if (extract_name_before_number
              (String.mk (textBeforeOf text ms))).isSome then 100 else 85)) ∧
    (extract_name_before_number (String.mk (textBeforeOf text ms)) = none →
      ∀ r : SniperResult, analyze_number formatted text ms me = some r →
        r.confidence_score < 100) := by
  have hblneg : ¬ (hasKw (fullContextOf text ms me) BLACKLIST_CONTEXT = true) := by
    simp [hbl]
  refine ⟨?_, ?_, ?_, ?_⟩
  · intro ho
    simp only [analyze_number]
    rw [if_neg hblneg, catOf_ops _ ho]
    cases hext : extract_name_before_number (String.mk (textBeforeOf text ms)) with
    | none =>
      rw [nameAdjust_none, finishResult_some]
      rfl
    | some nm =>
      rw [nameAdjust_some_some, finishResult_some]
      rfl
  · intro ho hd
    simp only [analyze_number]
    rw [if_neg hblneg, catOf_direct _ ho hd]
    cases hext : extract_name_before_number (String.mk (textBeforeOf text ms)) with
    | none =>
      rw [nameAdjust_none, finishResult_some]
      rfl
    | some nm =>
      rw [nameAdjust_some_some, finishResult_some]
      rfl
  · intro ho hd hg
    simp only [analyze_number]
    rw [if_neg hblneg, catOf_growth _ ho hd hg]
    cases hext : extract_name_before_number (String.mk (textBeforeOf text ms)) with
    | none =>
      rw [nameAdjust_none, finishResult_some]
      rfl
    | some nm =>
      rw [nameAdjust_some_some, finishResult_some]
      rfl
  · intro hnone r hr
    simp only [analyze_number] at hr
    rw [if_neg hblneg, hnone, nameAdjust_none] at hr
    rcases catOf_cases (fullContextOf text ms me) with hc | hc | hc | hc
    · rw [hc, finishResult_none] at hr
      exact Option.noConfusion hr
    · rw [hc, finishResult_some] at hr
      injection hr with hr
      subst hr
      simp
    · rw [hc, finishResult_some] at hr
      injection hr with hr
      subst hr
      simp
    · rw [hc, finishResult_some] at hr
      injection hr with hr
      subst hr
      simp

/-- Witness for C5 at a concrete ops-keyword context with no name. -/
theorem claim_c5_witness :
    (analyze_number "555-123-4567" "emergency 5551234567".data 10 20).map
        (fun r => (r.category, r.suggested_strategy, r.confidence_score)) =
      some (some "OPS_MAINTENANCE", some "Vendor/Maintenance Script",
        if (extract_name_before_number
            (String.mk (textBeforeOf "emergency 5551234567".data 10))).isSome
        then 100 else 90) :=
  (claim_c5_category_priority "555-123-4567" "emergency 5551234567".data 10 20
    (by decide)).1 (by decide)

/-- C6: the false-positive filter of extract_name_before_number is dead
code: "Contact Us" is in the rejection list and "Contact Us: " precedes the
number, yet the heuristic returns the contact name "Contact Us", because
the lowercased extracted name is compared against capitalized literals. -/
theorem claim_c6_false_positive_filter_dead :
    FALSE_POSITIVE_NAMES.contains "Contact Us" = true ∧
    FALSE_POSITIVE_NAMES.contains (lowerStr "Contact Us") = false ∧
    extract_name_before_number "Contact Us: " = some "Contact Us" := by
  decide

/-- C7: when the phone-number recognizer yields more than 15 matches on a
page, process_company skips the page entirely: the lead accumulator and the
seen set are returned unchanged, so the page contributes zero PhoneLeads
regardless of its content. -/
theorem claim_c7_density_guard (matcher : List Char → List PMatch)
    (text : List Char) (cn web : String)
    (acc : List SniperResult × List String)
    (h : 15 < (matcher text).length) :
    scanPage matcher text cn web acc = acc := by
  simp only [scanPage]
  rw [if_pos h]

/-- Witness matcher for C7: reports 16 matches on any page. -/
def wMatcher : List Char → List PMatch :=
  fun _ => (List.range 16).map (fun i => ⟨i, i + 10, "555-000-0000"⟩)

/-- Witness for C7: a page with 16 phone-number matches yields an unchanged
empty accumulator — zero PhoneLeads. -/
theorem claim_c7_witness :
    15 < (wMatcher "some page text".data).length ∧
    scanPage wMatcher "some page text".data "Acme" "acme.com" ([], []) = ([], []) :=
  ⟨by decide,
   claim_c7_density_guard wMatcher "some page text".data "Acme" "acme.com"
     ([], []) (by decide)⟩
